import Mathlib

/-!
Verification development for the multi-agent healthcare query router
(orchestrator + specialized agents + RAG engine + memory manager +
search aggregator).

Each Python function relevant to the verified properties is translated
into an executable Lean definition.  External collaborators (the
Completion Service, the Record Store, the search APIs, the embedding
backend) are modelled as explicit oracle parameters, so every pipeline
stage becomes a pure function of its inputs and of the collaborator
responses it receives.
-/

namespace Healthcare

/-- ASCII lower-casing of one character (the queries and labels handled by
this system are ASCII, so this matches Python's `str.lower`). -/
def charLower (c : Char) : Char :=
  if 65 ≤ c.toNat ∧ c.toNat ≤ 90 then Char.ofNat (c.toNat + 32) else c

/-- Python `s.lower()`. -/
def lowerS (s : String) : String := ⟨s.data.map charLower⟩

/-- Whitespace characters stripped by Python's `str.strip`. -/
def isWS (c : Char) : Bool := c == ' ' || c == '\t' || c == '\n' || c == '\r'

/-- Python `s.strip()`. -/
def trimS (s : String) : String :=
  ⟨((s.data.dropWhile isWS).reverse.dropWhile isWS).reverse⟩

/-- Does `pat` start the list `hay`? -/
def listStartsWith : List Char → List Char → Bool
  | _, [] => true
  | [], _ :: _ => false
  | a :: as, b :: bs => a == b && listStartsWith as bs

/-- Does `pat` occur as a contiguous sublist of `hay`? -/
def listOccurs : List Char → List Char → Bool
  | [], pat => pat.isEmpty
  | a :: rest, pat => listStartsWith (a :: rest) pat || listOccurs rest pat

/-- Python's `pat in s` substring test. -/
def containsSub (s pat : String) : Bool := listOccurs s.data pat.data

/-- Decimal digit character. -/
def digitChar (d : Nat) : Char := Char.ofNat (48 + d)

/-- Decimal rendering of a natural number (used only to build cache keys). -/
def natToStrAux : Nat → Nat → List Char
  | 0, _ => []
  | fuel + 1, n =>
    if n < 10 then [digitChar n]
    else natToStrAux fuel (n / 10) ++ [digitChar (n % 10)]

/-- Decimal rendering of a natural number. -/
def natToStr (n : Nat) : String := ⟨natToStrAux (n + 1) n⟩

/-- A Python value, as stored in the string-keyed `results` mapping that the
agents thread through their pipelines (`AgentState.results`). -/
inductive PyVal where
  | none
  | str (s : String)
  | dict (entries : List (String × PyVal))

/-- Python dict assignment `res[k] = v`: overwrite in place when the key is
present (insertion order preserved), otherwise append. -/
def setK (res : List (String × PyVal)) (k : String) (v : PyVal) :
    List (String × PyVal) :=
  if res.any (fun p => p.1 = k) then
    res.map (fun p => if p.1 = k then (k, v) else p)
  else
    res ++ [(k, v)]

/-- Python dict lookup `res.get(k)`. -/
def getK (res : List (String × PyVal)) (k : String) : Option PyVal :=
  (res.find? (fun p => p.1 = k)).map (fun p => p.2)

/-- Lookup returning the value only when it is a string. -/
def getStrK (res : List (String × PyVal)) (k : String) : Option String :=
  match getK res k with
  | some (.str s) => some s
  | _ => Option.none

/-- The keys of a results mapping, in insertion order. -/
def keysOf (res : List (String × PyVal)) : List String :=
  res.map (fun p => p.1)

end Healthcare

namespace Healthcare.Orchestrator

/-- `OrchestratorAgent._classify_intent` validation step: strip and
lower-case the Completion Service response, then coerce anything outside
the four valid labels to `"general"`. -/
def validIntents : List String :=
  ["disease_info", "patient_data", "appointment", "general"]

/-- The intent recorded by the CLASSIFY stage, as a function of the raw
Completion Service response text: `response.content.strip().lower()`,
coerced to `"general"` when outside `validIntents`. -/
def classifyLabel (resp : String) : String :=
  let intent := lowerS (trimS resp)
  if validIntents.contains intent then intent else "general"

/-- `OrchestratorAgent._classify_intent`: records `original_query` and the
validated `intent` in the results mapping.  The Completion Service response
text is the oracle parameter `resp`. -/
def classifyIntentStage (query resp : String)
    (res : List (String × PyVal)) : List (String × PyVal) :=
  let res := setK res "original_query" (.str query)
  setK res "intent" (.str (classifyLabel resp))

/-- Outcome of dispatching one specialized agent: either its result mapping
or the string message of the exception it raised. -/
def AgentOutcome := Except String (List (String × PyVal))

/-- `OrchestratorAgent._route_to_agent`.  `agentRun` is the oracle giving
each specialized agent's behaviour on this query (keyed by intent); the
`general` intent is handled inline with a canned message and never runs an
agent. -/
def routeToAgentStage (agentRun : String → AgentOutcome)
    (res : List (String × PyVal)) : List (String × PyVal) :=
  match getStrK res "intent" with
  | Option.none => res
  | some intent =>
    if intent = "general" then
      let res := setK res "agent_response"
        (.dict [("message",
          .str "This is a general health query. How can I assist you further?")])
      let res := setK res "agent_used" (.str "general")
      setK res "routing_status" (.str "success")
    else
      let agentName :=
        if intent = "disease_info" then "disease_info"
        else if intent = "patient_data" then "ehr"
        else "appointment"
      match agentRun intent with
      | .ok result =>
        let res := setK res "agent_response" (.dict result)
        let res := setK res "agent_used" (.str agentName)
        setK res "routing_status" (.str "success")
      | .error msg =>
        let res := setK res "routing_status" (.str "error")
        let res := setK res "error_message" (.str msg)
        setK res "agent_response" PyVal.none

/-- `OrchestratorAgent._synthesize_response`.  `synthResp` is the oracle
for the second Completion Service call (only consulted on the
re-synthesis path). -/
def synthesizeResponseStage (synthResp : String)
    (res : List (String × PyVal)) : List (String × PyVal) :=
  if getStrK res "routing_status" = some "error" then
    setK res "final_response" (.dict
      [("status", .str "error"),
       ("message", .str ("Error processing query: " ++
         (match getStrK res "error_message" with
          | some m => m
          | Option.none => "Unknown error"))),
       ("intent", (getK res "intent").getD PyVal.none)])
  else
    let agentResponse := (getK res "agent_response").getD PyVal.none
    let agentUsed := (getStrK res "agent_used").getD ""
    let ehrAnalysis : Option PyVal :=
      match agentResponse with
      | .dict entries => if agentUsed = "ehr" then getK entries "analysis" else Option.none
      | _ => Option.none
    match ehrAnalysis with
    | some analysis =>
      setK res "final_response" (.dict
        [("status", .str "success"),
         ("intent", (getK res "intent").getD PyVal.none),
         ("agent_used", .str agentUsed),
         ("synthesized_answer", analysis),
         ("raw_data", agentResponse)])
    | Option.none =>
      setK res "final_response" (.dict
        [("status", .str "success"),
         ("intent", (getK res "intent").getD PyVal.none),
         ("agent_used", .str agentUsed),
         ("synthesized_answer", .str synthResp),
         ("raw_data", agentResponse)])

/-- `OrchestratorAgent.process`: runs the linear graph
CLASSIFY -> ROUTE -> SYNTHESIZE on a fresh state and returns the final
`results` mapping. -/
def process (query classifyResp : String)
    (agentRun : String → AgentOutcome) (synthResp : String) :
    List (String × PyVal) :=
  synthesizeResponseStage synthResp
    (routeToAgentStage agentRun
      (classifyIntentStage query classifyResp []))

/-- The keys of the `final_response` entry, when it is a dict. -/
def finalResponseKeys (res : List (String × PyVal)) : Option (List String) :=
  match getK res "final_response" with
  | some (.dict entries) => some (keysOf entries)
  | _ => Option.none

/-- The validated classification label is always one of the four intents. -/
theorem classifyLabel_cases (resp : String) :
    classifyLabel resp = "disease_info" ∨ classifyLabel resp = "patient_data" ∨
    classifyLabel resp = "appointment" ∨ classifyLabel resp = "general" := by
  unfold classifyLabel
  by_cases h : lowerS (trimS resp) ∈ validIntents
  · rw [if_pos (by simpa [List.elem_iff] using h)]
    simpa [validIntents] using h
  · rw [if_neg (by simpa [List.elem_iff] using h)]
    simp

end Healthcare.Orchestrator

namespace Healthcare.Orchestrator

/-- C1 (counterexample): `OrchestratorAgent.process` returns the raw
pipeline `results` mapping, so on the concrete query "hi" classified as
`general` its top-level keys are the six pipeline keys; in particular
neither `status` nor `synthesized_answer` is a top-level key, refuting the
claim that the top-level keys are
`intent, agent_used, status, synthesized_answer, raw_data`. -/
theorem c1_top_level_keys_counterexample :
    ¬ ("status" ∈ keysOf (process "hi" "general" (fun _ => Except.error "") "ok")) ∧
    ¬ ("synthesized_answer" ∈ keysOf (process "hi" "general" (fun _ => Except.error "") "ok")) ∧
    keysOf (process "hi" "general" (fun _ => Except.error "") "ok") =
      ["original_query", "intent", "agent_response", "agent_used", "routing_status",
       "final_response"] := by
  decide

/-- C1 (amended): for every query, classification response, agent behaviour
and synthesis response, `OrchestratorAgent.process` returns a mapping that
contains a `final_response` entry, and on every successfully routed run that
entry is a mapping whose keys are exactly
`status, intent, agent_used, synthesized_answer, raw_data`. -/
theorem c1_final_response_shape (q cr sr : String) (ar : String → AgentOutcome) :
    (getK (process q cr ar sr) "final_response").isSome = true ∧
    (getStrK (process q cr ar sr) "routing_status" = some "success" →
      finalResponseKeys (process q cr ar sr) =
        some ["status", "intent", "agent_used", "synthesized_answer", "raw_data"]) := by
  have hc := classifyLabel_cases cr
  unfold process classifyIntentStage routeToAgentStage synthesizeResponseStage
  rcases hc with h | h | h | h <;> rw [h]
  case _ =>
    cases har : ar "disease_info" with
    | ok result => simp [setK, getK, getStrK, finalResponseKeys, keysOf, har]
    | error msg => simp [setK, getK, getStrK, finalResponseKeys, keysOf, har]
  case _ =>
    cases har : ar "patient_data" with
    | ok result =>
      cases hA : getK result "analysis" with
      | some analysis =>
        unfold getK at hA
        simp [setK, getK, getStrK, finalResponseKeys, keysOf, har, hA]
      | none =>
        unfold getK at hA
        simp [setK, getK, getStrK, finalResponseKeys, keysOf, har, hA]
    | error msg => simp [setK, getK, getStrK, finalResponseKeys, keysOf, har]
  case _ =>
    cases har : ar "appointment" with
    | ok result => simp [setK, getK, getStrK, finalResponseKeys, keysOf, har]
    | error msg => simp [setK, getK, getStrK, finalResponseKeys, keysOf, har]
  case _ =>
    simp [setK, getK, getStrK, finalResponseKeys, keysOf]

/-- Witness for C1 (amended), at a concrete successfully routed run. -/
theorem c1_final_response_shape_witness :
    finalResponseKeys
      (process "what is P001's age" "patient_data"
        (fun _ => Except.ok [("analysis", PyVal.str "62 years old")]) "ok") =
      some ["status", "intent", "agent_used", "synthesized_answer", "raw_data"] :=
  (c1_final_response_shape "what is P001's age" "patient_data" "ok"
    (fun _ => Except.ok [("analysis", PyVal.str "62 years old")])).2 (by decide)

/-- C2: the intent recorded by the CLASSIFY stage is the stripped,
lower-cased Completion Service response when that is one of the four valid
labels, and `general` otherwise; in particular it always lies in the valid
set. -/
theorem c2_classify_intent_valid (q resp : String) :
    getStrK (classifyIntentStage q resp []) "intent" = some (classifyLabel resp) ∧
    validIntents.contains (classifyLabel resp) = true ∧
    (validIntents.contains (lowerS (trimS resp)) = false →
      classifyLabel resp = "general") := by
  refine ⟨?_, ?_, ?_⟩
  · simp [classifyIntentStage, setK, getK, getStrK]
  · unfold classifyLabel
    by_cases h : lowerS (trimS resp) ∈ validIntents
    · rw [if_pos (by simpa [List.elem_iff] using h)]
      simpa [List.elem_iff] using h
    · rw [if_neg (by simpa [List.elem_iff] using h)]
      decide
  · intro h
    unfold classifyLabel
    rw [if_neg]
    simpa [List.elem_iff] using h

/-- Witness for C2, on an out-of-set response with extra words. -/
theorem c2_classify_intent_valid_witness :
    validIntents.contains (lowerS (trimS " Appointment please ")) = false ∧
    classifyLabel " Appointment please " = "general" ∧
    getStrK (classifyIntentStage "x" " Appointment please " []) "intent" =
      some "general" := by
  have h := c2_classify_intent_valid "x" " Appointment please "
  refine ⟨by decide, h.2.2 (by decide), ?_⟩
  have h1 := h.1
  rwa [h.2.2 (by decide)] at h1

end Healthcare.Orchestrator

namespace Healthcare.EHR

/-- One element of `s.data.take n` string truncation (Python `s[:n]`). -/
def strTake (s : String) (n : Nat) : String := ⟨s.data.take n⟩

/-- Concatenation of a list of strings (Python `+=` accumulation). -/
def concatAll : List String → String
  | [] => ""
  | x :: rest => x ++ concatAll rest

/-- Python `"\n".join(sections)`. -/
def joinWith (sep : String) : List String → String
  | [] => ""
  | [x] => x
  | x :: y :: rest => x ++ sep ++ joinWith sep (y :: rest)

/-- A patient record as returned by `EHRClient.get_patient_by_id` (demographics,
active conditions, active medications, latest vitals, allergies).
`errorMarker` is the truthiness of `patient_data.get("error")`. -/
structure PatientData where
  name : String
  age : Nat
  gender : String
  conditions : List String
  medications : List String
  vitals : List (String × String)
  allergies : List String
  errorMarker : Bool
deriving DecidableEq

/-- `EHRAgent._format_patient_data`. -/
def formatPatientData (p : PatientData) : String :=
  let sections := ["Patient: " ++ p.name, "Age: " ++ natToStr p.age,
    "Gender: " ++ p.gender]
  let sections := sections ++
    (if p.conditions.isEmpty then []
     else "\nConditions:" :: p.conditions.map (fun c => "  - " ++ c))
  let sections := sections ++
    (if p.medications.isEmpty then []
     else "\nMedications:" :: p.medications.map (fun m => "  - " ++ m))
  let sections := sections ++
    (if p.vitals.isEmpty then []
     else "\nVital Signs:" :: p.vitals.map (fun kv => "  - " ++ kv.1 ++ ": " ++ kv.2))
  let sections := sections ++
    (if p.allergies.isEmpty then []
     else "\nAllergies:" :: p.allergies.map (fun a => "  - " ++ a))
  joinWith "\n" sections

/-- The two prompt shapes the analyze stage can send to the Completion
Service: `EHRAgent.summary_prompt` and `EHRAgent.analysis_prompt`, identified
by their template and filled-in variables. -/
inductive EhrPrompt where
  | summaryP (patientData : String)
  | analysisP (patientData : String) (query : String) (context : String)
deriving DecidableEq

/-- Outcome of a call to a collaborator that may raise. -/
inductive CallOutcome (α : Type) where
  | ok (v : α)
  | exn
deriving DecidableEq

/-- The mapping returned by `RAGPipeline.query_with_patient_context`:
`answer?` is its `"answer"` entry when present, `context` the contents of
the retrieved documents. -/
structure RagResp where
  answer? : Option String
  context : List String
deriving DecidableEq

/-- Collaborator behaviour visible to `EHRAgent._analyze_data`:
whether memory/RAG is enabled, the outcome of the RAG patient-context
query, the outcome of the historical-context retrieval, and the
Completion Service response text. -/
structure EhrEnv where
  useMemory : Bool
  ragOutcome : CallOutcome RagResp
  histOutcome : CallOutcome (List String)
  llmResp : String
deriving DecidableEq

/-- Outcome of `EHRAgent._retrieve_data`: `success pd` when
`get_patient_by_id` returned (`pd = none` meaning not found), `failure msg`
when it raised. -/
inductive RetrievalOutcome where
  | success (pd : Option PatientData)
  | failure (msg : String)
deriving DecidableEq

/-- Observable result of `EHRAgent._analyze_data`: the analysis text, how
many Completion Service calls the agent itself issued (`llm.invoke`), how
many times `rag_pipeline.query_with_patient_context` was invoked, the
interactions appended to session memory, the `rag_used` flag, and the
prompt sent to the Completion Service (if any). -/
structure AnalyzeOut where
  analysis : String
  llmCalls : Nat
  ragPipelineCalls : Nat
  sessionAppends : List (String × String × String)
  ragUsed : Bool
  promptUsed : Option EhrPrompt
deriving DecidableEq

/-- The fixed not-found analysis, listing the known example ids. -/
def notFoundMsg (pid : String) : String :=
  "❌ **Patient Not Found**\n\nPatient ID `" ++ pid ++
    "` does not exist in the database.\n\nAvailable patient IDs: P001, P002, P003, P004"

/-- The analyze-stage result on the not-found short circuit. -/
def notFoundOut (pid : String) : AnalyzeOut :=
  { analysis := notFoundMsg pid, llmCalls := 0, ragPipelineCalls := 0,
    sessionAppends := [], ragUsed := false, promptUsed := Option.none }

/-- The historical-context block built from retrieved documents
(`context_text` accumulation over `historical_context[:3]`). -/
def historicalContextText (docs : List String) : String :=
  if 0 < docs.length then
    "\nHistorical Context:\n" ++
      concatAll ((docs.take 3).map (fun d => "- " ++ strTake d 200 ++ "...\n"))
  else ""

/-- The direct-prompt tail of `_analyze_data`: choose the prompt by
query type, invoke the Completion Service once, and best-effort append the
interaction to session memory. -/
def ehrDirectStep (env : EhrEnv) (dataStr qt pid ctx : String)
    (ragCalls : Nat) : AnalyzeOut :=
  let prompt :=
    if lowerS qt = "summary" then EhrPrompt.summaryP dataStr
    else EhrPrompt.analysisP dataStr qt
      (if ctx = "" then "No historical context available." else ctx)
  { analysis := env.llmResp, llmCalls := 1, ragPipelineCalls := ragCalls,
    sessionAppends := if env.useMemory then [(pid, qt, env.llmResp)] else [],
    ragUsed := false, promptUsed := some prompt }

/-- The historical-context retrieval followed by the direct-prompt tail
(the code after the RAG early return, still inside the same try/except:
an exception during retrieval leaves `context_text` empty). -/
def ehrAfterHist (env : EhrEnv) (dataStr qt pid : String)
    (ragCalls : Nat) : AnalyzeOut :=
  let ctx :=
    match env.histOutcome with
    | .exn => ""
    | .ok docs => historicalContextText docs
  ehrDirectStep env dataStr qt pid ctx ragCalls

/-- `EHRAgent._analyze_data`. -/
def analyzeData (env : EhrEnv) (retr : RetrievalOutcome)
    (qt pid : String) : AnalyzeOut :=
  match retr with
  | .failure msg =>
    { analysis := "Unable to retrieve patient data: " ++ msg, llmCalls := 0,
      ragPipelineCalls := 0, sessionAppends := [], ragUsed := false,
      promptUsed := Option.none }
  | .success pd =>
    match pd with
    | Option.none => notFoundOut pid
    | some p =>
      if p.errorMarker then notFoundOut pid
      else
        let dataStr := formatPatientData p
        if env.useMemory then
          if lowerS qt = "summary" then ehrAfterHist env dataStr qt pid 0
          else
            match env.ragOutcome with
            | .exn => ehrDirectStep env dataStr qt pid "" 1
            | .ok r =>
              match r.answer? with
              | some a =>
                { analysis := a, llmCalls := 0, ragPipelineCalls := 1,
                  sessionAppends := [], ragUsed := true, promptUsed := Option.none }
              | Option.none => ehrAfterHist env dataStr qt pid 1
        else ehrDirectStep env dataStr qt pid "" 0

end Healthcare.EHR

namespace Healthcare.EHR

/-- C4 (counterexample): when the Record Store lookup raises (here with
message "boom"), the analyze stage still makes zero Completion Service
calls, but its analysis is the "Unable to retrieve patient data" message,
not the fixed not-found message listing the example ids — refuting the
claim that every failing lookup yields the not-found message. -/
theorem c4_not_found_counterexample :
    (analyzeData ⟨false, .exn, .exn, "x"⟩ (.failure "boom") "summary" "P999").analysis =
      "Unable to retrieve patient data: boom" ∧
    (analyzeData ⟨false, .exn, .exn, "x"⟩ (.failure "boom") "summary" "P999").analysis ≠
      notFoundMsg "P999" ∧
    containsSub
      (analyzeData ⟨false, .exn, .exn, "x"⟩ (.failure "boom") "summary" "P999").analysis
      "P001" = false ∧
    (analyzeData ⟨false, .exn, .exn, "x"⟩ (.failure "boom") "summary" "P999").llmCalls = 0 := by
  decide

/-- C4 (amended): whenever the Record Store lookup returns not-found
(`None` or an error-marked record) the analyze stage performs zero
Completion Service and RAG invocations and returns the fixed not-found
message listing the known example ids (P001–P004); whenever the lookup
raises, it also performs zero invocations but returns the
"Unable to retrieve patient data" message carrying the exception text. -/
theorem c4_lookup_failure_zero_llm (env : EhrEnv) (qt pid msg : String) :
    analyzeData env (.success Option.none) qt pid = notFoundOut pid ∧
    (∀ p : PatientData, p.errorMarker = true →
      analyzeData env (.success (some p)) qt pid = notFoundOut pid) ∧
    analyzeData env (.failure msg) qt pid =
      { analysis := "Unable to retrieve patient data: " ++ msg, llmCalls := 0,
        ragPipelineCalls := 0, sessionAppends := [], ragUsed := false,
        promptUsed := Option.none } := by
  refine ⟨rfl, ?_, rfl⟩
  intro p hp
  simp [analyzeData, hp]

/-- Witness for C4 (amended), on the unknown patient id P999. -/
theorem c4_lookup_failure_zero_llm_witness :
    analyzeData ⟨true, .exn, .exn, "x"⟩ (.success Option.none) "age" "P999" =
      notFoundOut "P999" ∧
    analyzeData ⟨true, .exn, .exn, "x"⟩
        (.success (some ⟨"n", 1, "g", [], [], [], [], true⟩)) "age" "P999" =
      notFoundOut "P999" ∧
    (notFoundOut "P999").llmCalls = 0 := by
  have h := c4_lookup_failure_zero_llm ⟨true, .exn, .exn, "x"⟩ "age" "P999" "m"
  exact ⟨h.1, h.2.1 ⟨"n", 1, "g", [], [], [], [], true⟩ rfl, rfl⟩

/-- C5: on a successfully retrieved record, a query type equal to
"summary" (case-insensitively) always takes the summarization prompt, and
never issues the RAG patient-context query, whether or not memory/RAG is
enabled. -/
theorem c5_summary_skips_rag (env : EhrEnv) (p : PatientData) (qt pid : String)
    (hsum : lowerS qt = "summary") (herr : p.errorMarker = false) :
    (analyzeData env (.success (some p)) qt pid).ragPipelineCalls = 0 ∧
    (analyzeData env (.success (some p)) qt pid).promptUsed =
      some (EhrPrompt.summaryP (formatPatientData p)) ∧
    (analyzeData env (.success (some p)) qt pid).llmCalls = 1 := by
  cases hm : env.useMemory <;>
    simp [analyzeData, herr, hm, hsum, ehrAfterHist, ehrDirectStep]

/-- Witness for C5, with memory enabled and a "Summary" query type. -/
theorem c5_summary_skips_rag_witness :
    (analyzeData ⟨true, .ok ⟨some "ans", []⟩, .ok [], "llm"⟩
        (.success (some ⟨"Jane", 62, "F", ["Diabetes"], [], [], [], false⟩))
        "Summary" "P001").ragPipelineCalls = 0 ∧
    (analyzeData ⟨true, .ok ⟨some "ans", []⟩, .ok [], "llm"⟩
        (.success (some ⟨"Jane", 62, "F", ["Diabetes"], [], [], [], false⟩))
        "Summary" "P001").promptUsed =
      some (EhrPrompt.summaryP
        (formatPatientData ⟨"Jane", 62, "F", ["Diabetes"], [], [], [], false⟩)) :=
  have h := c5_summary_skips_rag ⟨true, .ok ⟨some "ans", []⟩, .ok [], "llm"⟩
    ⟨"Jane", 62, "F", ["Diabetes"], [], [], [], false⟩ "Summary" "P001"
    (by decide) (by decide)
  ⟨h.1, h.2.1⟩

/-- C10: when the RAG patient-context query returns a mapping with an
`answer` entry, the analyze stage returns that answer immediately, makes no
Completion Service call of its own, and appends nothing to session memory;
and any run that does append an interaction is a direct-prompt run
(`rag_used` false, exactly one Completion Service call). -/
theorem c10_rag_answer_frame :
    (∀ (env : EhrEnv) (p : PatientData) (qt pid : String) (r : RagResp) (a : String),
      p.errorMarker = false → env.useMemory = true →
      lowerS qt ≠ "summary" → env.ragOutcome = .ok r → r.answer? = some a →
      (analyzeData env (.success (some p)) qt pid).analysis = a ∧
      (analyzeData env (.success (some p)) qt pid).sessionAppends = [] ∧
      (analyzeData env (.success (some p)) qt pid).ragUsed = true ∧
      (analyzeData env (.success (some p)) qt pid).llmCalls = 0) ∧
    (∀ (env : EhrEnv) (retr : RetrievalOutcome) (qt pid : String),
      (analyzeData env retr qt pid).sessionAppends ≠ [] →
      (analyzeData env retr qt pid).ragUsed = false ∧
      (analyzeData env retr qt pid).llmCalls = 1) := by
  constructor
  · intro env p qt pid r a herr hm hq hrag ha
    simp [analyzeData, herr, hm, hq, hrag, ha]
  · intro env retr qt pid happ
    rcases retr with pd | msg
    · rcases pd with _ | p
      · simp [analyzeData, notFoundOut] at happ
      · by_cases herr : p.errorMarker
        · simp [analyzeData, herr, notFoundOut] at happ
        · cases hm : env.useMemory
          · simp [analyzeData, herr, hm, ehrDirectStep] at happ ⊢
          · by_cases hq : lowerS qt = "summary"
            · simp [analyzeData, herr, hm, hq, ehrAfterHist, ehrDirectStep]
            · cases hrag : env.ragOutcome with
              | exn => simp [analyzeData, herr, hm, hq, hrag, ehrDirectStep]
              | ok r =>
                cases ha : r.answer? with
                | some a => simp [analyzeData, herr, hm, hq, hrag, ha] at happ
                | none =>
                  simp [analyzeData, herr, hm, hq, hrag, ha, ehrAfterHist, ehrDirectStep]
    · simp [analyzeData] at happ

/-- Witness for C10: a concrete RAG-answered run (no session append) and a
concrete direct-prompt run (one append, one Completion Service call). -/
theorem c10_rag_answer_frame_witness :
    ((analyzeData ⟨true, .ok ⟨some "62 years old", ["doc"]⟩, .ok [], "llm"⟩
        (.success (some ⟨"Jane", 62, "F", [], [], [], [], false⟩))
        "age" "P001").analysis = "62 years old" ∧
     (analyzeData ⟨true, .ok ⟨some "62 years old", ["doc"]⟩, .ok [], "llm"⟩
        (.success (some ⟨"Jane", 62, "F", [], [], [], [], false⟩))
        "age" "P001").sessionAppends = []) ∧
    (analyzeData ⟨true, .exn, .exn, "llm"⟩
        (.success (some ⟨"Jane", 62, "F", [], [], [], [], false⟩))
        "age" "P001").ragUsed = false := by
  have h1 := c10_rag_answer_frame.1 ⟨true, .ok ⟨some "62 years old", ["doc"]⟩, .ok [], "llm"⟩
    ⟨"Jane", 62, "F", [], [], [], [], false⟩ "age" "P001"
    ⟨some "62 years old", ["doc"]⟩ "62 years old"
    (by decide) (by decide) (by decide) (by decide) (by decide)
  have h2 := c10_rag_answer_frame.2 ⟨true, .exn, .exn, "llm"⟩
    (.success (some ⟨"Jane", 62, "F", [], [], [], [], false⟩)) "age" "P001"
    (by decide)
  exact ⟨⟨h1.1, h1.2.1⟩, h2.1⟩

end Healthcare.EHR

namespace Healthcare.Appointment

/-!
Dates are modelled as day indexes in the proleptic Gregorian calendar
(day 0 = 0001-01-01, a Monday), so that Python's `date.weekday()` is
`d % 7` (0 = Monday … 6 = Sunday) and `timedelta(days = n)` is `+ n`.
`daysFromCivil` / `civilFromDays` convert between (year, month, day)
triples and day indexes; `strftime`/`strptime` round-trips are the
identity under this encoding.
-/

/-- Gregorian leap-year rule (Python `calendar.isleap`). -/
def isLeap (y : Nat) : Bool := (y % 4 == 0 && y % 100 != 0) || y % 400 == 0

/-- Number of days in a month (Python `calendar.monthrange(y, m)[1]`). -/
def daysInMonth (y m : Nat) : Nat :=
  if m = 2 then (if isLeap y then 29 else 28)
  else if m = 4 ∨ m = 6 ∨ m = 9 ∨ m = 11 then 30 else 31

/-- Days in the months of year `y` strictly before month `m`. -/
def daysBeforeMonth (y m : Nat) : Nat :=
  ((List.range (m - 1)).map (fun i => daysInMonth y (i + 1))).foldl (· + ·) 0

/-- Day index of the civil date `y-m-d` (0 = 0001-01-01). -/
def daysFromCivil (y m d : Nat) : Nat :=
  let py := y - 1
  365 * py + py / 4 - py / 100 + py / 400 + daysBeforeMonth y m + (d - 1)

/-- Civil date of a day index (inverse of `daysFromCivil`). -/
def civilFromDays (days : Nat) : Nat × Nat × Nat :=
  let z := days + 306
  let era := z / 146097
  let doe := z % 146097
  let yoe := (doe - doe / 1460 + doe / 36524 - doe / 146096) / 365
  let doy := doe - (365 * yoe + yoe / 4 - yoe / 100)
  let mp := (5 * doy + 2) / 153
  let d := doy - (153 * mp + 2) / 5 + 1
  let m := if mp < 10 then mp + 3 else mp - 9
  let y := yoe + era * 400 + (if m ≤ 2 then 1 else 0)
  (y, m, d)

/-- The month-name table iterated by `_parse_date_request`, in Python dict
insertion order. -/
def monthNames : List (String × Nat) :=
  [("january", 1), ("february", 2), ("march", 3), ("april", 4),
   ("may", 5), ("june", 6), ("july", 7), ("august", 8),
   ("september", 9), ("october", 10), ("november", 11), ("december", 12)]

/-- The "last week of `<month>`" window: last 7 calendar days of the target
month, with the year rolled to next year when the month has passed (or is
the current month and today is past day 21). -/
def lastWeekOfMonthRange (today monthNum : Nat) : Nat × Nat :=
  let c := civilFromDays today
  let ty := c.1
  let tm := c.2.1
  let td := c.2.2
  let targetYear :=
    if monthNum < tm then ty + 1
    else if monthNum = tm ∧ 21 < td then ty + 1
    else ty
  let endD := daysFromCivil targetYear monthNum (daysInMonth targetYear monthNum)
  (endD - 6, endD)

/-- The month after today's month, with December rolling the year. -/
def nextMonthOf (today : Nat) : Nat × Nat :=
  let c := civilFromDays today
  if c.2.1 = 12 then (c.1 + 1, 1) else (c.1, c.2.1 + 1)

/-- The "next month" window: the full calendar month after the current one. -/
def nextMonthRange (today : Nat) : Nat × Nat :=
  let nm := nextMonthOf today
  (daysFromCivil nm.1 nm.2 1, daysFromCivil nm.1 nm.2 (daysInMonth nm.1 nm.2))

/-- The "last week of next month" window: last 7 calendar days of the month
after the current one. -/
def lastWeekOfNextMonthRange (today : Nat) : Nat × Nat :=
  let nm := nextMonthOf today
  let endD := daysFromCivil nm.1 nm.2 (daysInMonth nm.1 nm.2)
  (endD - 6, endD)

/-- `AppointmentAgent._parse_date_request`: natural-language date phrases to
an explicit inclusive (start, end) window, `none` when no phrase matches. -/
def parseDateRequest (q : String) (today : Nat) : Option (Nat × Nat) :=
  let ql := lowerS q
  if containsSub ql "next week" then
    let start := today + (7 - today % 7)
    some (start, start + 6)
  else
    match monthNames.findSome? (fun nm =>
      if containsSub ql ("last week of " ++ nm.1) || containsSub ql ("end of " ++ nm.1)
      then some (lastWeekOfMonthRange today nm.2) else Option.none) with
    | some r => some r
    | Option.none =>
      if containsSub ql "last week of next month" || containsSub ql "end of next month" ||
          containsSub ql "final week of next month" then
        some (lastWeekOfNextMonthRange today)
      else if containsSub ql "next month" && !containsSub ql "last week" then
        some (nextMonthRange today)
      else if containsSub ql "this week" then
        some (today - today % 7, today - today % 7 + 6)
      else Option.none

/-- One mock appointment slot (date index and time label). -/
structure Slot where
  date : Nat
  time : String
deriving DecidableEq

/-- The four fixed per-weekday slots of `_generate_mock_slots`. -/
def slotsForDay (d : Nat) : List Slot :=
  [⟨d, "09:00 AM"⟩, ⟨d, "11:00 AM"⟩, ⟨d, "02:00 PM"⟩, ⟨d, "04:00 PM"⟩]

/-- The while-loop of `_generate_mock_slots`, iterating `n` days starting at
`d` and skipping weekends. -/
def genSlotsAux : Nat → Nat → List Slot
  | _, 0 => []
  | d, n + 1 => (if d % 7 < 5 then slotsForDay d else []) ++ genSlotsAux (d + 1) n

/-- `AppointmentAgent._generate_mock_slots`: slots over the requested
range, or over `[today + 1, today + 5]` when no range was parsed. -/
def generateMockSlots (dateRange : Option (Nat × Nat)) (today : Nat) : List Slot :=
  match dateRange with
  | some (s, e) => genSlotsAux s (e + 1 - s)
  | Option.none => genSlotsAux (today + 1) 5

/-- Every generated slot lies on a weekday inside the iterated window. -/
theorem genSlotsAux_mem (n : Nat) : ∀ (d : Nat) (sl : Slot),
    sl ∈ genSlotsAux d n → sl.date % 7 < 5 ∧ d ≤ sl.date ∧ sl.date < d + n := by
  induction n with
  | zero => intro d sl h; simp [genSlotsAux] at h
  | succ m ih =>
    intro d sl h
    simp only [genSlotsAux, List.mem_append] at h
    rcases h with h | h
    · by_cases hd : d % 7 < 5
      · rw [if_pos hd] at h
        simp only [slotsForDay, List.mem_cons, List.not_mem_nil, or_false] at h
        rcases h with rfl | rfl | rfl | rfl <;>
          exact ⟨hd, le_refl _, show d < d + (m + 1) by omega⟩
      · rw [if_neg hd] at h
        simp at h
    · have := ih (d + 1) sl h
      exact ⟨this.1, by omega, by omega⟩

/-- A Monday-started 7-day window yields exactly 20 slots. -/
theorem genSlotsAux_length_week (s : Nat) (h : s % 7 = 0) :
    (genSlotsAux s 7).length = 20 := by
  obtain ⟨k, rfl⟩ : ∃ k, s = 7 * k := ⟨s / 7, by omega⟩
  simp only [genSlotsAux]
  rw [if_pos (by omega), if_pos (by omega), if_pos (by omega), if_pos (by omega),
      if_pos (by omega), if_neg (by omega), if_neg (by omega)]
  simp [slotsForDay]

end Healthcare.Appointment

namespace Healthcare.Appointment

/-- C6: for every current date, a query containing "next week" parses to
the Monday-to-Sunday window strictly after the current week, and slot
generation over that window yields exactly 20 slots, none on a weekend. -/
theorem c6_next_week_slots (q : String) (t : Nat)
    (h : containsSub (lowerS q) "next week" = true) :
    parseDateRequest q t = some (t + (7 - t % 7), t + (7 - t % 7) + 6) ∧
    (t + (7 - t % 7)) % 7 = 0 ∧
    t - t % 7 + 6 < t + (7 - t % 7) ∧
    (generateMockSlots (parseDateRequest q t) t).length = 20 ∧
    ∀ sl ∈ generateMockSlots (parseDateRequest q t) t, sl.date % 7 < 5 := by
  have hp : parseDateRequest q t = some (t + (7 - t % 7), t + (7 - t % 7) + 6) := by
    unfold parseDateRequest
    simp only [h, if_true]
  refine ⟨hp, by omega, by omega, ?_, ?_⟩
  · rw [hp]
    show (genSlotsAux (t + (7 - t % 7))
      (t + (7 - t % 7) + 6 + 1 - (t + (7 - t % 7)))).length = 20
    have h7 : t + (7 - t % 7) + 6 + 1 - (t + (7 - t % 7)) = 7 := by omega
    rw [h7]
    exact genSlotsAux_length_week _ (by omega)
  · intro sl hsl
    rw [hp] at hsl
    have hsl2 : sl ∈ genSlotsAux (t + (7 - t % 7))
        (t + (7 - t % 7) + 6 + 1 - (t + (7 - t % 7))) := hsl
    exact (genSlotsAux_mem _ _ _ hsl2).1

/-- Witness for C6, on the spec's example query with today = day 3 (a
Thursday): the window is days 7–13 and exactly 20 slots are generated. -/
theorem c6_next_week_slots_witness :
    containsSub (lowerS "I need to schedule a checkup for next week") "next week" = true ∧
    parseDateRequest "I need to schedule a checkup for next week" 3 = some (7, 13) ∧
    (generateMockSlots
      (parseDateRequest "I need to schedule a checkup for next week" 3) 3).length = 20 := by
  have h := c6_next_week_slots "I need to schedule a checkup for next week" 3 (by decide)
  exact ⟨by decide, h.1, h.2.2.2.1⟩

/-- C7: with no recognized date phrase, parsing yields no explicit range —
but the fallback window is the next 5 *calendar* days (today+1 … today+5)
with weekends skipped, not the next 5 business days as the code's own
comment and the spec state.  On Monday 2026-10-12 only Tue 13th – Fri 16th
get slots (16, not 20), and the claimed fifth business day (Monday
2026-10-19) receives none. -/
theorem c7_default_window_not_business_days :
    (daysFromCivil 2026 10 12) % 7 = 0 ∧
    parseDateRequest "I need a checkup" (daysFromCivil 2026 10 12) = Option.none ∧
    (generateMockSlots (parseDateRequest "I need a checkup" (daysFromCivil 2026 10 12))
        (daysFromCivil 2026 10 12)).length = 16 ∧
    ¬ (daysFromCivil 2026 10 19 ∈
        (generateMockSlots (parseDateRequest "I need a checkup" (daysFromCivil 2026 10 12))
          (daysFromCivil 2026 10 12)).map (fun sl => sl.date)) := by
  decide

end Healthcare.Appointment

namespace Healthcare.Search

/-- A search result row as assembled by the search tools.  Real Medline
rows carry extra fields (pmid, authors, journal); only the fields that the
aggregation, ranking and formatting logic reads are modelled. -/
structure SResult where
  title : String
  url : String
  snippet : String
  source : String
  timestamp : String
deriving DecidableEq

/-- A per-tool `results_cache` (Python dict from cache key to results). -/
abbrev Cache := List (String × List SResult)

/-- Cache lookup. -/
def cacheGet (c : Cache) (k : String) : Option (List SResult) :=
  (c.find? (fun p => p.1 = k)).map (fun p => p.2)

/-- Cache insertion (`self.results_cache[key] = results`; prepending gives
the same lookup behaviour as Python's in-place assignment). -/
def cachePut (c : Cache) (k : String) (v : List SResult) : Cache :=
  (k, v) :: c

/-- Python `query.replace(" ", "+")`. -/
def plusSpaces (q : String) : String :=
  ⟨q.data.map (fun c => if c == ' ' then '+' else c)⟩

/-- `WebSearchTool._cache_key(query, **kwargs)`: the query plus the
invocation parameters (kwargs rendering simplified, injective in the same
arguments). -/
def bingCacheKey (q : String) (count : Nat) (market : String) : String :=
  q ++ "_count=" ++ natToStr count ++ ",market=" ++ market

/-- Medline cache key (query, max_results, sort). -/
def medCacheKey (q : String) (maxr : Nat) (sort : String) : String :=
  q ++ "_max_results=" ++ natToStr maxr ++ ",sort=" ++ sort

/-- WHO cache key (query, max_results). -/
def whoCacheKey (q : String) (maxr : Nat) : String :=
  q ++ "_max_results=" ++ natToStr maxr

/-- `BingSearchTool._mock_search` (a single synthetic result). -/
def mockBing (q now : String) : List SResult :=
  [{ title := "Medical Information about " ++ q,
     url := "https://www.nih.gov/search?query=" ++ plusSpaces q,
     snippet := "Authoritative medical information about " ++ q ++
       " from trusted sources.",
     source := "Mock Bing Search", timestamp := now }]

/-- `MedlineSearchTool._mock_medline_search` (a single synthetic result;
the real mock row has no snippet field, modelled as the empty string). -/
def mockMedline (q now : String) : List SResult :=
  [{ title := "Clinical Study on " ++ q,
     url := "https://pubmed.ncbi.nlm.nih.gov/?term=" ++ plusSpaces q,
     snippet := "",
     source := "Mock PubMed/Medline", timestamp := now }]

/-- External-world behaviour of one `BingSearchTool.search` call: whether
an API key is configured, the parsed API response (`none` = the request
raised), and the current timestamp. -/
structure BingEnv where
  hasKey : Bool
  apiResult : Option (List SResult)
  now : String
deriving DecidableEq

/-- External-world behaviour of one `MedlineSearchTool.search` call: key
and email configuration, the esearch id list (`none` = raised), the parsed
esummary rows (`none` = raised), and the current timestamp. -/
structure MedEnv where
  hasKey : Bool
  emailOk : Bool
  esearchIds : Option (List String)
  esummaryRows : Option (List SResult)
  now : String
deriving DecidableEq

/-- Result of one tool call: the returned rows, the updated cache, and how
many external search-API HTTP requests were made. -/
structure ToolOut where
  results : List SResult
  cache : Cache
  calls : Nat
deriving DecidableEq

/-- `BingSearchTool.search`: mock without a key; otherwise cache hit, or
one external call that is cached on success and degrades to mock on
failure. -/
def bingSearch (env : BingEnv) (cache : Cache) (q : String)
    (count : Nat) (market : String) : ToolOut :=
  if !env.hasKey then ⟨mockBing q env.now, cache, 0⟩
  else
    match cacheGet cache (bingCacheKey q count market) with
    | some rs => ⟨rs, cache, 0⟩
    | Option.none =>
      match env.apiResult with
      | some rs => ⟨rs, cachePut cache (bingCacheKey q count market) rs, 1⟩
      | Option.none => ⟨mockBing q env.now, cache, 1⟩

/-- `MedlineSearchTool.search`: mock without key/email; otherwise cache
hit, or the two-step esearch/esummary lookup (an empty id list returns `[]`
without caching; each failing step degrades to mock). -/
def medlineSearch (env : MedEnv) (cache : Cache) (q : String)
    (maxr : Nat) (sort : String) : ToolOut :=
  if !(env.hasKey && env.emailOk) then ⟨mockMedline q env.now, cache, 0⟩
  else
    match cacheGet cache (medCacheKey q maxr sort) with
    | some rs => ⟨rs, cache, 0⟩
    | Option.none =>
      match env.esearchIds with
      | Option.none => ⟨mockMedline q env.now, cache, 1⟩
      | some ids =>
        if ids.isEmpty then ⟨[], cache, 1⟩
        else
          match env.esummaryRows with
          | Option.none => ⟨mockMedline q env.now, cache, 2⟩
          | some rs => ⟨rs, cachePut cache (medCacheKey q maxr sort) rs, 2⟩

/-- The curated WHO topic table of `WHOSearchTool._get_who_resources`. -/
def whoTopics : List (String × String × String × String) :=
  [("diabetes", "Diabetes - WHO Fact Sheet",
    "https://www.who.int/news-room/fact-sheets/detail/diabetes",
    "Key facts about diabetes from the World Health Organization"),
   ("hypertension", "Hypertension - WHO Fact Sheet",
    "https://www.who.int/news-room/fact-sheets/detail/hypertension",
    "Global overview of hypertension statistics and prevention"),
   ("covid", "Coronavirus disease (COVID-19) - WHO",
    "https://www.who.int/health-topics/coronavirus",
    "WHO guidance and resources on COVID-19")]

/-- `WHOSearchTool._get_who_resources`: matched curated topics, or one
generic entry when no topic substring matches, truncated to
`max_results`. -/
def whoResources (q : String) (maxr : Nat) (now : String) : List SResult :=
  let ql := lowerS q
  let matched := (whoTopics.filter (fun t => containsSub ql t.1)).map
    (fun t => { title := t.2.1, url := t.2.2.1, snippet := t.2.2.2,
                source := "WHO", timestamp := now : SResult })
  let rs :=
    if matched.isEmpty then
      [{ title := "WHO Health Topics - " ++ q,
         url := "https://www.who.int/health-topics/" ++
           plusSpaces (lowerS q),
         snippet := "World Health Organization information on " ++ q,
         source := "WHO", timestamp := now : SResult }]
    else matched
  rs.take maxr

/-- `WHOSearchTool.search`: a pure curated lookup behind a cache; never
makes an external call. -/
def whoSearch (now : String) (cache : Cache) (q : String)
    (maxr : Nat) : ToolOut :=
  match cacheGet cache (whoCacheKey q maxr) with
  | some rs => ⟨rs, cache, 0⟩
  | Option.none =>
    let rs := whoResources q maxr now
    ⟨rs, cachePut cache (whoCacheKey q maxr) rs, 0⟩

/-- `MedicalSearchAggregator.rank_result`: WHO first, Medline/PubMed
second, everything else third. -/
def rankResult (r : SResult) : Nat :=
  if containsSub r.source "WHO" then 0
  else if containsSub r.source "Medline" || containsSub r.source "PubMed" then 1
  else 2

/-- Python's stable `combined.sort(key=rank_result)` for the 3-valued key:
the rank-0 rows, then the rank-1 rows, then the rank-2 rows, each in
original order. -/
def stableSortByRank (l : List SResult) : List SResult :=
  l.filter (fun r => rankResult r == 0) ++
    l.filter (fun r => rankResult r == 1) ++
    l.filter (fun r => rankResult r == 2)

/-- The three per-tool caches held by one `MedicalSearchAggregator`. -/
structure AggState where
  bing : Cache
  medline : Cache
  who : Cache
deriving DecidableEq

/-- External-world behaviour of one aggregator call. -/
structure AggEnv where
  bing : BingEnv
  med : MedEnv
  whoNow : String
deriving DecidableEq

/-- Result of `get_combined_results`: the returned rows, the updated
caches, and the number of external search-API requests made. -/
structure AggOut where
  results : List SResult
  state : AggState
  calls : Nat
deriving DecidableEq

/-- `MedicalSearchAggregator.get_combined_results`: query all three
sources via `search_all` (5 results per source), concatenate in dict order
(bing, medline, who), stable-sort by trust rank, truncate. -/
def getCombinedResults (env : AggEnv) (st : AggState) (q : String)
    (maxTotal : Nat) : AggOut :=
  let b := bingSearch env.bing st.bing q 5 "en-US"
  let m := medlineSearch env.med st.medline q 5 "relevance"
  let w := whoSearch env.whoNow st.who q 5
  let combined := b.results ++ m.results ++ w.results
  { results := (stableSortByRank combined).take maxTotal,
    state := { bing := b.cache, medline := m.cache, who := w.cache },
    calls := b.calls + m.calls + w.calls }

end Healthcare.Search

namespace Healthcare.Search

/-- Inserting a cache entry makes it visible to lookup. -/
theorem cacheGet_cachePut (c : Cache) (k : String) (v : List SResult) :
    cacheGet (cachePut c k v) k = some v := by
  simp [cacheGet, cachePut]

/-- A second Bing search with the key configured and the key cached by the
first call returns the first call's rows, leaves the cache unchanged, and
makes no external request. -/
theorem bingSearch_cached (e1 e2 : BingEnv) (c : Cache) (q : String)
    (count : Nat) (market : String)
    (h1 : e1.hasKey = true) (h2 : e2.hasKey = true)
    (hk : (cacheGet (bingSearch e1 c q count market).cache
      (bingCacheKey q count market)).isSome = true) :
    bingSearch e2 (bingSearch e1 c q count market).cache q count market =
      ⟨(bingSearch e1 c q count market).results,
       (bingSearch e1 c q count market).cache, 0⟩ := by
  unfold bingSearch at *
  rw [h1] at hk ⊢
  rw [h2]
  simp only [Bool.not_true, Bool.false_eq_true, if_false] at *
  cases hc : cacheGet c (bingCacheKey q count market) with
  | some rs => simp [hc]
  | none =>
    cases ha : e1.apiResult with
    | some rs => simp [hc, ha, cacheGet_cachePut]
    | none => simp [hc, ha] at hk

/-- A second Medline search with key and email configured and the key
cached by the first call returns the first call's rows with no external
request. -/
theorem medlineSearch_cached (e1 e2 : MedEnv) (c : Cache) (q : String)
    (maxr : Nat) (sort : String)
    (h1 : e1.hasKey = true) (h1e : e1.emailOk = true)
    (h2 : e2.hasKey = true) (h2e : e2.emailOk = true)
    (hk : (cacheGet (medlineSearch e1 c q maxr sort).cache
      (medCacheKey q maxr sort)).isSome = true) :
    medlineSearch e2 (medlineSearch e1 c q maxr sort).cache q maxr sort =
      ⟨(medlineSearch e1 c q maxr sort).results,
       (medlineSearch e1 c q maxr sort).cache, 0⟩ := by
  unfold medlineSearch at *
  rw [h1, h1e] at hk ⊢
  rw [h2, h2e]
  simp only [Bool.and_self, Bool.not_true, Bool.false_eq_true, if_false] at *
  cases hc : cacheGet c (medCacheKey q maxr sort) with
  | some rs => simp [hc]
  | none =>
    cases hi : e1.esearchIds with
    | none => simp [hc, hi] at hk
    | some ids =>
      by_cases hempty : ids.isEmpty
      · simp [hc, hi, hempty] at hk
      · cases hs : e1.esummaryRows with
        | none => simp [hc, hi, hempty, hs] at hk
        | some rs => simp [hc, hi, hempty, hs, cacheGet_cachePut]

/-- A second WHO search always replays the first call's rows from cache. -/
theorem whoSearch_cached (now1 now2 : String) (c : Cache) (q : String)
    (maxr : Nat) :
    whoSearch now2 (whoSearch now1 c q maxr).cache q maxr =
      ⟨(whoSearch now1 c q maxr).results, (whoSearch now1 c q maxr).cache, 0⟩ := by
  unfold whoSearch
  cases hc : cacheGet c (whoCacheKey q maxr) with
  | some rs => simp [hc]
  | none => simp [hc, cacheGet_cachePut]

/-- C8: with the search API keys configured in both calls, once one
`get_combined_results(q, n)` call has left each source's cache populated
for its derived key, a second call with identical arguments returns the
identical ordered result list, leaves every cache unchanged, and performs
zero external search-API requests. -/
theorem c8_combined_results_idempotent (e1 e2 : AggEnv) (st0 : AggState)
    (q : String) (n : Nat)
    (hb1 : e1.bing.hasKey = true) (hb2 : e2.bing.hasKey = true)
    (hm1 : e1.med.hasKey = true) (hm1e : e1.med.emailOk = true)
    (hm2 : e2.med.hasKey = true) (hm2e : e2.med.emailOk = true)
    (hkb : (cacheGet (getCombinedResults e1 st0 q n).state.bing
      (bingCacheKey q 5 "en-US")).isSome = true)
    (hkm : (cacheGet (getCombinedResults e1 st0 q n).state.medline
      (medCacheKey q 5 "relevance")).isSome = true) :
    getCombinedResults e2 (getCombinedResults e1 st0 q n).state q n =
      ⟨(getCombinedResults e1 st0 q n).results,
       (getCombinedResults e1 st0 q n).state, 0⟩ := by
  simp only [getCombinedResults] at hkb hkm ⊢
  rw [bingSearch_cached e1.bing e2.bing st0.bing q 5 "en-US" hb1 hb2 hkb,
      medlineSearch_cached e1.med e2.med st0.medline q 5 "relevance" hm1 hm1e hm2 hm2e hkm,
      whoSearch_cached e1.whoNow e2.whoNow st0.who q 5]
  rfl

/-- Witness for C8: a concrete first call from empty caches (API paths
succeed), then a second call at a later timestamp replays it with zero
external requests. -/
theorem c8_combined_results_idempotent_witness :
    getCombinedResults
        ⟨⟨true, some [⟨"B", "u", "s", "Bing Search", "t2"⟩], "t2"⟩,
         ⟨true, true, some ["1"], some [⟨"M", "u", "s", "PubMed/Medline", "t2"⟩], "t2"⟩,
         "t2"⟩
        (getCombinedResults
          ⟨⟨true, some [⟨"B", "u", "s", "Bing Search", "t1"⟩], "t1"⟩,
           ⟨true, true, some ["1"], some [⟨"M", "u", "s", "PubMed/Medline", "t1"⟩], "t1"⟩,
           "t1"⟩ ⟨[], [], []⟩ "flu" 3).state "flu" 3 =
      ⟨(getCombinedResults
          ⟨⟨true, some [⟨"B", "u", "s", "Bing Search", "t1"⟩], "t1"⟩,
           ⟨true, true, some ["1"], some [⟨"M", "u", "s", "PubMed/Medline", "t1"⟩], "t1"⟩,
           "t1"⟩ ⟨[], [], []⟩ "flu" 3).results,
       (getCombinedResults
          ⟨⟨true, some [⟨"B", "u", "s", "Bing Search", "t1"⟩], "t1"⟩,
           ⟨true, true, some ["1"], some [⟨"M", "u", "s", "PubMed/Medline", "t1"⟩], "t1"⟩,
           "t1"⟩ ⟨[], [], []⟩ "flu" 3).state, 0⟩ :=
  c8_combined_results_idempotent
    ⟨⟨true, some [⟨"B", "u", "s", "Bing Search", "t1"⟩], "t1"⟩,
     ⟨true, true, some ["1"], some [⟨"M", "u", "s", "PubMed/Medline", "t1"⟩], "t1"⟩,
     "t1"⟩
    ⟨⟨true, some [⟨"B", "u", "s", "Bing Search", "t2"⟩], "t2"⟩,
     ⟨true, true, some ["1"], some [⟨"M", "u", "s", "PubMed/Medline", "t2"⟩], "t2"⟩,
     "t2"⟩
    ⟨[], [], []⟩ "flu" 3 rfl rfl rfl rfl rfl rfl (by decide) (by decide)

end Healthcare.Search

namespace Healthcare.Search

/-- The fixed no-results answer of `RAGPipeline.query_with_web_search`. -/
def noInfoAnswer : String :=
  "No relevant medical information found. Please rephrase your query."

/-- The mapping returned by `RAGPipeline.query_with_web_search`, plus a
flag recording whether the Completion Service branch was taken. -/
structure WebSearchOut where
  answer : String
  searchResults : List SResult
  sourceTag : String
  llmCalled : Bool
deriving DecidableEq

/-- `RAGPipeline.query_with_web_search`: combined search then either the
fixed no-results answer (no Completion Service call) or one Completion
Service call over the formatted evidence (`llmResp` is its oracle). -/
def queryWithWebSearch (llmResp : String) (env : AggEnv) (st : AggState)
    (q : String) (maxResults : Nat) : WebSearchOut × AggState × Nat :=
  let out := getCombinedResults env st q maxResults
  if out.results.isEmpty then
    (⟨noInfoAnswer, [], "web_search", false⟩, out.state, out.calls)
  else
    (⟨llmResp, out.results, "web_search", true⟩, out.state, out.calls)

/-- Taking at least one element of a non-empty list is non-empty. -/
theorem take_ne_nil_of_ne_nil (l : List SResult) (n : Nat)
    (h : l ≠ []) (hn : 1 ≤ n) : l.take n ≠ [] := by
  intro hcon
  rw [List.take_eq_nil_iff] at hcon
  rcases hcon with h1 | h1
  · omega
  · exact h h1

/-- The curated WHO lookup always yields at least one row (the generic
fallback entry when no topic matches). -/
theorem whoResources_ne_nil (q : String) (maxr : Nat) (now : String)
    (h : 1 ≤ maxr) : whoResources q maxr now ≠ [] := by
  simp only [whoResources]
  apply take_ne_nil_of_ne_nil _ _ _ h
  split
  · simp
  · next he => simpa [List.isEmpty_iff] using he

/-- A WHO search from a cache whose entries are all non-empty returns a
non-empty row list and preserves that cache invariant. -/
theorem whoSearch_keeps_ne_nil (now : String) (c : Cache) (q : String)
    (maxr : Nat) (h : 1 ≤ maxr) (hinv : ∀ p ∈ c, p.2 ≠ ([] : List SResult)) :
    (whoSearch now c q maxr).results ≠ [] ∧
    ∀ p ∈ (whoSearch now c q maxr).cache, p.2 ≠ ([] : List SResult) := by
  unfold whoSearch
  cases hc : cacheGet c (whoCacheKey q maxr) with
  | some rs =>
    refine ⟨?_, hinv⟩
    unfold cacheGet at hc
    rcases Option.map_eq_some'.mp hc with ⟨p, hp, hpv⟩
    have hmem := List.mem_of_find?_eq_some hp
    subst hpv
    exact hinv p hmem
  | none =>
    refine ⟨whoResources_ne_nil q maxr now h, ?_⟩
    intro p hp
    rcases List.mem_cons.mp hp with rfl | hp2
    · exact whoResources_ne_nil q maxr now h
    · exact hinv p hp2

/-- The trust-tier rank takes only the values 0, 1, 2. -/
theorem rankResult_cases (r : SResult) :
    rankResult r = 0 ∨ rankResult r = 1 ∨ rankResult r = 2 := by
  unfold rankResult
  split_ifs <;> simp

/-- The stable rank sort of a non-empty list is non-empty. -/
theorem stableSortByRank_ne_nil (l : List SResult) (h : l ≠ []) :
    stableSortByRank l ≠ [] := by
  obtain ⟨x, hx⟩ := List.exists_mem_of_ne_nil l h
  intro hcon
  unfold stableSortByRank at hcon
  rw [List.append_eq_nil, List.append_eq_nil] at hcon
  rcases hcon with ⟨⟨h0, h1⟩, h2⟩
  rcases rankResult_cases x with hr | hr | hr
  · have := List.filter_eq_nil_iff.mp h0 x hx
    simp [hr] at this
  · have := List.filter_eq_nil_iff.mp h1 x hx
    simp [hr] at this
  · have := List.filter_eq_nil_iff.mp h2 x hx
    simp [hr] at this

/-- C9: for every query and `max_total_results ≥ 1` (from any reachable
aggregator state — i.e., any state whose WHO cache holds only non-empty
entries, which holds initially and is preserved), `get_combined_results`
returns a non-empty list, so `query_with_web_search` never takes its
empty-results branch: it always calls the Completion Service and returns
its answer, not the fixed "no information found" answer. -/
theorem c9_combined_results_nonempty (env : AggEnv) (st : AggState)
    (q llm : String) (n : Nat)
    (hn : 1 ≤ n) (hinv : ∀ p ∈ st.who, p.2 ≠ ([] : List SResult)) :
    (getCombinedResults env st q n).results ≠ [] ∧
    (queryWithWebSearch llm env st q n).1.llmCalled = true ∧
    (queryWithWebSearch llm env st q n).1.answer = llm ∧
    (∀ p ∈ (getCombinedResults env st q n).state.who, p.2 ≠ ([] : List SResult)) := by
  have hw := whoSearch_keeps_ne_nil env.whoNow st.who q 5 (by omega) hinv
  have hres : (getCombinedResults env st q n).results ≠ [] := by
    simp only [getCombinedResults]
    apply take_ne_nil_of_ne_nil _ _ _ hn
    apply stableSortByRank_ne_nil
    intro hcon
    rw [List.append_eq_nil] at hcon
    exact hw.1 hcon.2
  refine ⟨hres, ?_, ?_, hw.2⟩
  · unfold queryWithWebSearch
    rw [if_neg (by simpa [List.isEmpty_iff] using hres)]
  · unfold queryWithWebSearch
    rw [if_neg (by simpa [List.isEmpty_iff] using hres)]

/-- Witness for C9: from empty caches, with every external source failing
(no keys), the combined results are still non-empty and the web-search
query takes the Completion Service branch. -/
theorem c9_combined_results_nonempty_witness :
    (getCombinedResults ⟨⟨false, Option.none, "t"⟩,
        ⟨false, false, Option.none, Option.none, "t"⟩, "t"⟩
      ⟨[], [], []⟩ "rare disease" 1).results ≠ [] ∧
    (queryWithWebSearch "synthesized" ⟨⟨false, Option.none, "t"⟩,
        ⟨false, false, Option.none, Option.none, "t"⟩, "t"⟩
      ⟨[], [], []⟩ "rare disease" 1).1.answer = "synthesized" :=
  have h := c9_combined_results_nonempty
    ⟨⟨false, Option.none, "t"⟩, ⟨false, false, Option.none, Option.none, "t"⟩, "t"⟩
    ⟨[], [], []⟩ "rare disease" "synthesized" 1 (by decide) (by simp)
  ⟨h.1, h.2.2.1⟩

end Healthcare.Search

namespace Healthcare.Memory

/-- A vector-store document: text content plus string-keyed metadata
(the `patient_id`, `timestamp` and `type` entries written by the memory
manager; only string-valued metadata takes part in filtering). -/
structure MDoc where
  content : String
  metadata : List (String × String)
deriving DecidableEq

/-- Metadata lookup on one document. -/
def metaLookup (d : MDoc) (k : String) : Option String :=
  (d.metadata.find? (fun p => p.1 = k)).map (fun p => p.2)

/-- A document matches a filter dict when every filter entry equals the
stored metadata value exactly (string equality). -/
def matchesFilter (f : List (String × String)) (d : MDoc) : Bool :=
  f.all (fun kv => metaLookup d kv.1 == some kv.2)

/-- The vector store's `similarity_search(query, k, filter)`: `ranked` is
the store's documents ordered by ascending embedding distance to the
query text (the ordering is the embedding backend's behaviour and is
universally quantified here); with a filter only metadata-matching
documents are eligible, and at most `k` are returned. -/
def similaritySearch (ranked : List MDoc) (k : Nat)
    (f? : Option (List (String × String))) : List MDoc :=
  match f? with
  | Option.none => ranked.take k
  | some f => (ranked.filter (matchesFilter f)).take k

/-- `MemoryManager.retrieve_patient_context`: similarity search restricted
by the exact-match filter `{"patient_id": patient_id}`.  When no query is
given the generic "patient <id> medical history" string is used as search
text; either way the same filter applies, and the query only determines
the similarity ordering, which `ranked` already captures. -/
def retrievePatientContext (ranked : List MDoc) (pid : String)
    (query : Option String) (k : Nat) : List MDoc :=
  match query with
  | some _ => similaritySearch ranked k (some [("patient_id", pid)])
  | Option.none => similaritySearch ranked k (some [("patient_id", pid)])

/-- `MemoryManager.save_patient_summary`: appends one document whose
metadata starts from `patient_id`/`timestamp`/`type` and is then updated
with the caller's extra entries (Python `meta.update(metadata)`). -/
def savePatientSummary (store : List MDoc) (pid summary ts : String)
    (extra : List (String × String)) : List MDoc :=
  let base := [("patient_id", pid), ("timestamp", ts), ("type", "patient_summary")]
  let meta := extra.foldl (fun acc kv =>
    if acc.any (fun p => p.1 = kv.1) then
      acc.map (fun p => if p.1 = kv.1 then kv else p)
    else acc ++ [kv]) base
  store ++ [{ content := summary, metadata := meta }]

/-- C3: every document returned by `retrieve_patient_context(X, query, k)`
has stored metadata `patient_id` exactly equal to `X` (string equality),
for every store state and similarity ordering, every optional query and
every limit. -/
theorem c3_retrieve_filter_exact (ranked : List MDoc) (pid : String)
    (query : Option String) (k : Nat) :
    ∀ d ∈ retrievePatientContext ranked pid query k,
      metaLookup d "patient_id" = some pid := by
  intro d hd
  have hd1 : d ∈ (ranked.filter (matchesFilter [("patient_id", pid)])).take k := by
    cases query <;> exact hd
  have hd2 := List.mem_of_mem_take hd1
  have hm := (List.mem_filter.mp hd2).2
  unfold matchesFilter at hm
  simp only [List.all_cons, List.all_nil, Bool.and_true] at hm
  exact eq_of_beq hm

/-- Witness for C3: in a concrete two-patient store the returned document
is the one carrying `patient_id = "X"`. -/
theorem c3_retrieve_filter_exact_witness :
    metaLookup ⟨"summary of X", [("patient_id", "X"), ("type", "patient_summary")]⟩
      "patient_id" = some "X" :=
  c3_retrieve_filter_exact
    [⟨"summary of Y", [("patient_id", "Y"), ("type", "patient_summary")]⟩,
     ⟨"summary of X", [("patient_id", "X"), ("type", "patient_summary")]⟩]
    "X" (some "medications") 5
    ⟨"summary of X", [("patient_id", "X"), ("type", "patient_summary")]⟩
    (by decide)

end Healthcare.Memory
